import Mathlib

/-!
Verification of the mergin repository (Mergin Maps web client, TypeScript)
against its natural-language specification.

The front-end sources (type declarations in
src/web-app/packages/lib/src/modules/project/types.ts, the API client
projectApi.ts, the admin store, and the private OpenAPI declaration) are
embedded shallowly below.  The server-side sync engine is not part of the
repository sources; where a claim depends on it, the relevant operation is
modelled from the specification text and marked as such in its doc comment.
-/

namespace Mergin

/-! ## Data model embedded from src (TypeScript interfaces, part_003) -/

/-- Embeds interface FileInfo: path, checksum, size, optional mtime. -/
structure FileInfo where
  path : String
  checksum : String
  size : Nat
  mtime : Option String
deriving DecidableEq, Repr

/-- Embeds interface FileDiff: path, checksum, optional size. -/
structure FileDiff where
  path : String
  checksum : String
  size : Option Nat
deriving DecidableEq, Repr

/-- Embeds interface UpdateFileInfo, the merge of FileInfo and FileDiff with
size required again: path, checksum, size, optional mtime. -/
structure UpdateFileInfo where
  path : String
  checksum : String
  size : Nat
  mtime : Option String
deriving DecidableEq, Repr

/-- Embeds interface UploadFileInfo: a FileInfo together with the declared
chunk identifiers. -/
structure UploadFileInfo where
  path : String
  checksum : String
  size : Nat
  mtime : Option String
  chunks : List String
deriving DecidableEq, Repr

/-- The declared property names of interface FileInfo, read off the source. -/
def fileInfoFields : List String := ["path", "checksum", "size", "mtime"]

/-- The declared property names of interface FileDiff, read off the source. -/
def fileDiffFields : List String := ["path", "checksum", "size"]

/-- The declared property names of interface UpdateFileInfo (FileInfo merged
with FileDiff, size required). -/
def updateFileInfoFields : List String := ["path", "checksum", "size", "mtime"]

/-- Embeds the changes field of interface ProjectVersion: all three change
lists are declared with element type FileInfo in the source. -/
structure VersionChanges where
  added : List FileInfo
  removed : List FileInfo
  updated : List FileInfo
deriving DecidableEq, Repr

/-- Element field names of the added list of ProjectVersion.changes
(element type FileInfo in the source). -/
def projectVersionAddedEntryFields : List String := fileInfoFields

/-- Element field names of the removed list of ProjectVersion.changes
(element type FileInfo in the source). -/
def projectVersionRemovedEntryFields : List String := fileInfoFields

/-- Element field names of the updated list of ProjectVersion.changes
(element type FileInfo in the source). -/
def projectVersionUpdatedEntryFields : List String := fileInfoFields

/-- Element field names of the updated list of PushProjectChangesParams.changes
(element type UpdateFileInfo in the source). -/
def pushParamsUpdatedEntryFields : List String := updateFileInfoFields

/-- Embeds interface ChangesetError: optional size and error description. -/
structure ChangesetError where
  size : Option Nat
  error : Option String
deriving DecidableEq, Repr

/-- Embeds interface ChangesetSuccessSummaryItem: optional table name and
per-table insert, update and delete counts. -/
structure ChangesetSuccessSummaryItem where
  table : Option String
  insert : Option Nat
  update : Option Nat
  delete : Option Nat
deriving DecidableEq, Repr

/-- Embeds interface ChangesetSuccess: optional size and per-table summary. -/
structure ChangesetSuccess where
  size : Option Nat
  summary : Option (List ChangesetSuccessSummaryItem)
deriving DecidableEq, Repr

/-- The declared property names of interface ChangesetSuccess. -/
def changesetSuccessFields : List String := ["size", "summary"]

/-- The declared property names of interface ChangesetError. -/
def changesetErrorFields : List String := ["size", "error"]

/-- A JSON-level value inhabiting the untagged TypeScript union
ChangesetSuccess | ChangesetError: an object that may carry any of the three
optional properties declared by the two interfaces. -/
structure ChangesetJson where
  size : Option Nat
  summary : Option (List ChangesetSuccessSummaryItem)
  error : Option String
deriving DecidableEq, Repr

/-- A JSON object fits the ChangesetSuccess shape when it has no property
outside the declared ones, i.e. no error property (all declared properties
are optional, so none is required). -/
def fitsChangesetSuccess (c : ChangesetJson) : Bool :=
  c.error = none

/-- A JSON object fits the ChangesetError shape when it has no property
outside the declared ones, i.e. no summary property (all declared properties
are optional, so none is required). -/
def fitsChangesetError (c : ChangesetJson) : Bool :=
  c.summary = none

/-- A JSON object inhabits the union type of the changesets field when it fits
at least one of the two interface shapes. -/
def fitsChangesetUnion (c : ChangesetJson) : Bool :=
  fitsChangesetSuccess c || fitsChangesetError c

/-- Embeds interface ProjectAccess: user-id membership lists, the matching
username lists and the public flag. -/
structure ProjectAccess where
  owners : List Nat
  ownersnames : List String
  public : Bool
  readers : List Nat
  readersnames : List String
  writers : List Nat
  writersnames : List String
deriving DecidableEq, Repr

/-- Embeds interface ProjectItemPermissions. -/
structure ProjectItemPermissions where
  delete : Bool
  update : Bool
  upload : Bool
deriving DecidableEq, Repr

/-- Embeds interface ProjectListItem (tags kept as raw strings). -/
structure ProjectListItem where
  name : String
  created : Option String
  access : ProjectAccess
  creator : Nat
  disk_usage : Nat
  has_conflict : Bool
  id : String
  «namespace» : String
  permissions : ProjectItemPermissions
  tags : List String
  updated : String
  version : String
deriving DecidableEq, Repr

/-- The four project role names of the private API access-update enum
(src part_006, update_project_access requestBody role enum). -/
inductive ProjectRoleName where
  | owner
  | writer
  | reader
  | none
deriving DecidableEq, Repr

/-- Embeds interface ProjectDetail: a ProjectListItem with the resolved role
and the optional file list (file history metadata elided). -/
structure ProjectDetail where
  item : ProjectListItem
  role : ProjectRoleName
  files : Option (List FileInfo)
deriving DecidableEq, Repr

/-- Embeds the union type PushProjectChangesResponse =
ProjectDetail | (an object with a transaction id), from the source. -/
inductive PushProjectChangesResponse where
  | detail (d : ProjectDetail)
  | transaction (t : String)
deriving DecidableEq, Repr

/-! ## Enums embedded from the private OpenAPI declaration (part_006) -/

/-- The role enum of the update_project_access request body
(path /project/id/access, part_006 lines 349 to 358). -/
def updateProjectAccessRoleEnum : List String :=
  ["owner", "writer", "reader", "none"]

/-- The permissions enum of the accept_project_access_request request body
(path /project/access-request/accept/request_id, part_006 lines 114 to 125). -/
def acceptRequestPermissionEnum : List String :=
  ["owner", "write", "read"]

/-! ## Admin store getter embedded from src (part_004) -/

/-- Embeds the fields of LatestServerVersionResponse used by the getter:
major, minor and fix version numbers. -/
structure LatestServerVersion where
  major : Int
  minor : Int
  fix : Int
deriving DecidableEq, Repr

/-- Embeds the instance config version fields read by the getter; each may be
undefined in the store, hence Option. -/
structure ConfigData where
  major : Option Int
  minor : Option Int
  fix : Option Int
deriving DecidableEq, Repr

/-- JavaScript comparison a for b where b may be undefined: any comparison
with undefined is false. -/
def jsGtOpt (a : Int) (b : Option Int) : Bool :=
  match b with
  | some b => a > b
  | none => false

/-- Embeds the displayUpdateAvailable getter of the admin store
(src part_004 lines 252 to 286): returns false unless update checking is
enabled and both the latest server version and the instance config are
present; the guard accepts config.major and config.minor when defined
(including zero); then compares (major, minor, fix) branch by branch. -/
def displayUpdateAvailable (checkForUpdates : Option Bool)
    (latestServerVersion : Option LatestServerVersion)
    (config : Option ConfigData) : Bool :=
  if checkForUpdates ≠ some true then false
  else
    match latestServerVersion, config with
    | some l, some c =>
      match c.major, c.minor with
      | some cmajor, some cminor =>
        if l.major > cmajor then true
        else if l.major = cmajor then
          if l.minor > cminor then true
          else if l.minor = cminor then
            if jsGtOpt l.fix c.fix then true else false
          else false
        else false
      | _, _ => false
    | _, _ => false

/-! ## Sync engine modelled from the specification

The server-side sync engine (Version Ledger and Push Transaction Manager) is
not part of the repository sources; only its types, API client and OpenAPI
declaration are.  The operations below are modelled from the specification
sections 4.2, 4.3 and 8. -/

/-- Error taxonomy of the specification (section 7); the push-relevant cases. -/
inductive PushError where
  | Conflict
  | UnknownTransaction
  | ChunkMismatch
  | IncompleteUpload
  | Forbidden
deriving DecidableEq, Repr

/-- A committed version record: author and the ordered change lists. -/
structure VersionRec where
  author : String
  changes : VersionChanges
deriving DecidableEq, Repr

/-- Modelled from the spec: a PushTransaction (section 3) scoped to one
client session; carries the base version, the declared change manifest, the
author and the per-chunk upload state keyed by (fileKey, chunkIndex). -/
structure Tx where
  baseVersion : Nat
  changes : VersionChanges
  author : String
  chunks : List ((String × Nat) × List Nat)
deriving DecidableEq, Repr

/-- Modelled from the spec: the server state for one project: the append-only
version ledger, the current file set served in ProjectDetail, the open push
transactions and the next transaction identifier. -/
structure ServerState where
  versions : List VersionRec
  files : List FileInfo
  txs : List (Nat × Tx)
  nextTx : Nat
deriving DecidableEq, Repr

/-- The current latest version of the ledger, as a sequence number:
version N is the N-th committed version. -/
def currentVersion (st : ServerState) : Nat :=
  st.versions.length

/-- Look up an open transaction by identifier. -/
def getTx : List (Nat × Tx) → Nat → Option Tx
  | [], _ => none
  | (k, t) :: rest, txId => if k = txId then some t else getTx rest txId

/-- Replace the transaction stored under an identifier. -/
def setTx : List (Nat × Tx) → Nat → Tx → List (Nat × Tx)
  | [], _, _ => []
  | (k, t) :: rest, txId, nt =>
    if k = txId then (k, nt) :: rest else (k, t) :: setTx rest txId nt

/-- Discard the transaction stored under an identifier. -/
def removeTx (l : List (Nat × Tx)) (txId : Nat) : List (Nat × Tx) :=
  l.filter (fun p => p.1 != txId)

/-- Look up the acknowledged bytes of a chunk by (fileKey, chunkIndex). -/
def getChunk : List ((String × Nat) × List Nat) → String × Nat → Option (List Nat)
  | [], _ => none
  | (k, b) :: rest, key => if k = key then some b else getChunk rest key

/-- Modelled from the spec (section 4.2): applying one version's change lists
to a file set: removed paths are dropped, updated paths are replaced by the
updated entry, added entries are appended. -/
def applyChanges (files : List FileInfo) (c : VersionChanges) : List FileInfo :=
  ((files.filter (fun f => !c.removed.any (fun r => r.path == f.path))).map
    (fun f =>
      match c.updated.find? (fun u => u.path == f.path) with
      | some u => u
      | none => f)) ++ c.added

/-- Modelled from the spec (sections 4.2 and 8): reconstructing the file set
as of version N is the fold of changes 1..N over the empty file set. -/
def replay (vs : List VersionRec) : List FileInfo :=
  vs.foldl (fun fs v => applyChanges fs v.changes) []

/-- Modelled from the spec (section 4.2): atomically append a version to the
ledger and update the current file set by applying its changes. -/
def commitVersion (st : ServerState) (ch : VersionChanges) (author : String) :
    ServerState :=
  { st with
    versions := st.versions ++ [⟨author, ch⟩],
    files := applyChanges st.files ch }

/-- The empty project state: no versions, no files, no open transactions. -/
def initialState : ServerState :=
  ⟨[], [], [], 0⟩

/-- Modelled from the spec (sections 4.3 and 8): open a push transaction.
A stale base version fails closed with Conflict before any upload work and
leaves the state unchanged. -/
def startPush (st : ServerState) (baseVersion : Nat) (changes : VersionChanges)
    (author : String) : Except PushError Nat × ServerState :=
  if baseVersion = currentVersion st then
    (Except.ok st.nextTx,
     { st with
       txs := (st.nextTx, ⟨baseVersion, changes, author, []⟩) :: st.txs,
       nextTx := st.nextTx + 1 })
  else
    (Except.error PushError.Conflict, st)

/-- Modelled from the spec (section 4.3): upload one chunk.  Unknown or
expired transactions fail with UnknownTransaction; resending the bytes of an
already acknowledged chunk is a no-op; resending different bytes for an
acknowledged chunk fails with ChunkMismatch; otherwise the chunk is
acknowledged and recorded. -/
def uploadChunk (st : ServerState) (txId : Nat) (fileKey : String)
    (chunkIndex : Nat) (bytes : List Nat) : Except PushError Unit × ServerState :=
  match getTx st.txs txId with
  | none => (Except.error PushError.UnknownTransaction, st)
  | some tx =>
    match getChunk tx.chunks (fileKey, chunkIndex) with
    | some b0 =>
      if b0 = bytes then (Except.ok (), st)
      else (Except.error PushError.ChunkMismatch, st)
    | none =>
      (Except.ok (),
       { st with
         txs := setTx st.txs txId
           { tx with chunks := ((fileKey, chunkIndex), bytes) :: tx.chunks } })

/-- Modelled from the spec (sections 4.3 and 8): finish a push transaction.
The base version is re-checked at commit time; on mismatch the result is
Conflict, the transaction is discarded and no version is appended.  On match
the ledger atomically appends the declared changes and the committed file set
is returned. -/
def finishPush (st : ServerState) (txId : Nat) :
    Except PushError (List FileInfo) × ServerState :=
  match getTx st.txs txId with
  | none => (Except.error PushError.UnknownTransaction, st)
  | some tx =>
    if tx.baseVersion = currentVersion st then
      let st1 := commitVersion { st with txs := removeTx st.txs txId }
        tx.changes tx.author
      (Except.ok st1.files, st1)
    else
      (Except.error PushError.Conflict, { st with txs := removeTx st.txs txId })

/-- Modelled from the spec (section 4.3): cancel discards the transaction and
never touches the ledger. -/
def cancelPush (st : ServerState) (txId : Nat) :
    Except PushError Unit × ServerState :=
  match getTx st.txs txId with
  | none => (Except.error PushError.UnknownTransaction, st)
  | some _ => (Except.ok (), { st with txs := removeTx st.txs txId })

/-- Modelled from the spec (section 6): a small push applied inline, returning
the committed file set; a stale base version fails with Conflict and leaves
the state unchanged. -/
def pushInline (st : ServerState) (baseVersion : Nat) (changes : VersionChanges)
    (author : String) : Except PushError (List FileInfo) × ServerState :=
  if baseVersion = currentVersion st then
    let st1 := commitVersion st changes author
    (Except.ok st1.files, st1)
  else
    (Except.error PushError.Conflict, st)

/-- The states reachable from the empty project by the modelled operations. -/
inductive Reachable : ServerState → Prop where
  | init : Reachable initialState
  | start (st : ServerState) (bv : Nat) (ch : VersionChanges) (a : String) :
      Reachable st → Reachable (startPush st bv ch a).2
  | upload (st : ServerState) (txId : Nat) (fk : String) (i : Nat)
      (b : List Nat) : Reachable st → Reachable (uploadChunk st txId fk i b).2
  | finish (st : ServerState) (txId : Nat) :
      Reachable st → Reachable (finishPush st txId).2
  | cancel (st : ServerState) (txId : Nat) :
      Reachable st → Reachable (cancelPush st txId).2
  | inline (st : ServerState) (bv : Nat) (ch : VersionChanges) (a : String) :
      Reachable st → Reachable (pushInline st bv ch a).2

/-! ## Access control modelled from the specification -/

/-- Modelled from the spec (section 4.4): effective role resolution over the
source ProjectAccess record: owner, writer, reader membership lists in that
order, else reader when the project is public, else none. -/
def resolveRole (a : ProjectAccess) (u : Nat) : ProjectRoleName :=
  if u ∈ a.owners then ProjectRoleName.owner
  else if u ∈ a.writers then ProjectRoleName.writer
  else if u ∈ a.readers then ProjectRoleName.reader
  else if a.public then ProjectRoleName.reader
  else ProjectRoleName.none

/-- Modelled from the spec (section 4.4): creating an access request for a
project by a user, over the pending set of (project, user) requests.  A
pending duplicate fails with Conflict; a project that does not allow requests
fails with Forbidden; otherwise a pending request is recorded. -/
def createAccessRequest (pending : List (String × Nat)) (allowsRequests : Bool)
    (proj : String) (user : Nat) :
    Except PushError Unit × List (String × Nat) :=
  if (proj, user) ∈ pending then
    (Except.error PushError.Conflict, pending)
  else if allowsRequests then
    (Except.ok (), (proj, user) :: pending)
  else
    (Except.error PushError.Forbidden, pending)

/-- A project record as seen by the admin restore endpoint: creator, access
record and the soft-delete markers (part_003 AdminProjectListItem and
ProjectListItem fields). -/
structure AdminProjectRec where
  id : String
  creator : Nat
  access : ProjectAccess
  removed_at : Option String
  removed_by : Option String
deriving DecidableEq, Repr

/-- Modelled from the spec: the restore_project operation, whose behaviour the
OpenAPI declaration (part_006, /project/removed-project/restore) documents as
restoring the removed project so that it is again accessible to its creator
while access permissions have been cleared.  The implementation is not in the
sources; restore clears the soft-delete markers and resets access to the
creator alone. -/
def restore_project (p : AdminProjectRec) : AdminProjectRec :=
  { p with
    removed_at := none,
    removed_by := none,
    access :=
      { owners := [p.creator],
        ownersnames := [],
        public := false,
        readers := [],
        readersnames := [],
        writers := [],
        writersnames := [] } }

/-- The update-available condition as the specification sentence of claim C10
states it, for comparison with the embedded getter: update checking enabled,
latest server version and instance config present, config major and minor
defined, and the latest (major, minor, fix) strictly lexicographically
greater than the configured version, the fix components compared as the
getter compares numbers against a possibly undefined configured fix. -/
def specUpdateAvailable (checkForUpdates : Option Bool)
    (latestServerVersion : Option LatestServerVersion)
    (config : Option ConfigData) : Bool :=
  match checkForUpdates, latestServerVersion, config with
  | some true, some l, some c =>
    match c.major, c.minor with
    | some cmajor, some cminor =>
      decide (l.major > cmajor) ||
        (decide (l.major = cmajor) &&
          (decide (l.minor > cminor) ||
            (decide (l.minor = cminor) && jsGtOpt l.fix c.fix)))
    | _, _ => false
  | _, _, _ => false

/-! ## Concrete sample data used by witness theorems -/

/-- An empty change manifest. -/
def emptyChanges : VersionChanges := ⟨[], [], []⟩

/-- A sample file entry. -/
def sampleFile : FileInfo := ⟨"survey.gpkg", "abc", 10, none⟩

/-- A change manifest adding one file. -/
def sampleChanges : VersionChanges := ⟨[sampleFile], [], []⟩

/-- A server state with one open transaction (id 0) whose base version
matches the empty ledger. -/
def openTxState : ServerState :=
  ⟨[], [], [(0, ⟨0, sampleChanges, "alice", []⟩)], 1⟩

/-- A server state with one open transaction (id 0) whose base version 1 is
stale against the empty ledger. -/
def staleTxState : ServerState :=
  ⟨[], [], [(0, ⟨1, emptyChanges, "alice", []⟩)], 1⟩

/-- The state after uploading one chunk into the open transaction of
openTxState. -/
def chunkedTxState : ServerState :=
  (uploadChunk openTxState 0 "f" 0 [1, 2]).2

/-- A sample public-project access record: owner 1, writer 2, reader 3. -/
def samplePublicAccess : ProjectAccess :=
  ⟨[1], [], true, [3], [], [2], []⟩

/-- A sample non-public access record: owner 1, writer 2, reader 3. -/
def samplePrivateAccess : ProjectAccess :=
  ⟨[1], [], false, [3], [], [2], []⟩

/-- A sample soft-deleted project with shared access, created by user 1. -/
def sampleRemovedProject : AdminProjectRec :=
  ⟨"pid", 1, ⟨[1, 2], [], true, [3], [], [2], []⟩, some "2023-01-01", some "bob"⟩

/-! ## Helper lemmas -/

/-- Looking up a transaction after replacing it yields the replacement. -/
theorem getTx_setTx (l : List (Nat × Tx)) (txId : Nat) (t nt : Tx)
    (h : getTx l txId = some t) :
    getTx (setTx l txId nt) txId = some nt := by
  induction l with
  | nil => simp [getTx] at h
  | cons p rest ih =>
    obtain ⟨k, t0⟩ := p
    by_cases hk : k = txId
    · subst hk
      simp [getTx, setTx]
    · simp [getTx, setTx, hk] at h ⊢
      exact ih h

/-- Replaying a ledger extended by one version applies that last change list
to the replay of the prefix. -/
theorem replay_append (vs : List VersionRec) (v : VersionRec) :
    replay (vs ++ [v]) = applyChanges (replay vs) v.changes := by
  simp [replay, List.foldl_append]

/-! ## Claim theorems -/

/-- Claim C1: for every project and every push whose base version differs
from the current latest version, the push operation returns Conflict and the
version ledger is unchanged, whether the mismatch is detected at transaction
start, at an inline push, or at commit time (finish). -/
theorem c1_stale_base_conflict :
    (∀ (st : ServerState) (bv : Nat) (ch : VersionChanges) (a : String),
      bv ≠ currentVersion st →
        (startPush st bv ch a).1 = Except.error PushError.Conflict ∧
        (startPush st bv ch a).2 = st) ∧
    (∀ (st : ServerState) (bv : Nat) (ch : VersionChanges) (a : String),
      bv ≠ currentVersion st →
        (pushInline st bv ch a).1 = Except.error PushError.Conflict ∧
        (pushInline st bv ch a).2 = st) ∧
    (∀ (st : ServerState) (txId : Nat) (tx : Tx),
      getTx st.txs txId = some tx →
      tx.baseVersion ≠ currentVersion st →
        (finishPush st txId).1 = Except.error PushError.Conflict ∧
        (finishPush st txId).2.versions = st.versions ∧
        (finishPush st txId).2.files = st.files) := by
  refine ⟨?_, ?_, ?_⟩
  · intro st bv ch a h
    simp [startPush, h]
  · intro st bv ch a h
    simp [pushInline, h]
  · intro st txId tx hget h
    simp [finishPush, hget, h]

/-- Witness for C1: concrete stale pushes against the empty ledger return
Conflict and leave the state unchanged. -/
theorem c1_stale_base_conflict_witness :
    ((startPush initialState 1 emptyChanges "alice").1 =
        Except.error PushError.Conflict ∧
      (startPush initialState 1 emptyChanges "alice").2 = initialState) ∧
    ((pushInline initialState 2 emptyChanges "alice").1 =
        Except.error PushError.Conflict ∧
      (pushInline initialState 2 emptyChanges "alice").2 = initialState) ∧
    ((finishPush staleTxState 0).1 = Except.error PushError.Conflict ∧
      (finishPush staleTxState 0).2.versions = staleTxState.versions ∧
      (finishPush staleTxState 0).2.files = staleTxState.files) :=
  ⟨c1_stale_base_conflict.1 initialState 1 emptyChanges "alice" (by decide),
   c1_stale_base_conflict.2.1 initialState 2 emptyChanges "alice" (by decide),
   c1_stale_base_conflict.2.2 staleTxState 0 ⟨1, emptyChanges, "alice", []⟩
     (by decide) (by decide)⟩

/-- Claim C2: for every reachable server state, the current file set served
in ProjectDetail equals the fold of the committed change lists from the empty
file set, so the incremental file set and the from-scratch replay agree. -/
theorem c2_replay_reconstructs (st : ServerState) (h : Reachable st) :
    st.files = replay st.versions := by
  induction h with
  | init => rfl
  | start st bv ch a h ih =>
    by_cases hb : bv = currentVersion st
    · simp [startPush, hb, ih]
    · simp [startPush, hb, ih]
  | upload st txId fk i b h ih =>
    rcases hg : getTx st.txs txId with _ | tx
    · simp [uploadChunk, hg, ih]
    · rcases hc : getChunk tx.chunks (fk, i) with _ | b0
      · simp [uploadChunk, hg, hc, ih]
      · by_cases hb : b0 = b
        · simp [uploadChunk, hg, hc, hb, ih]
        · simp [uploadChunk, hg, hc, hb, ih]
  | finish st txId h ih =>
    rcases hg : getTx st.txs txId with _ | tx
    · simp [finishPush, hg, ih]
    · by_cases hb : tx.baseVersion = currentVersion st
      · have hr := replay_append st.versions ⟨tx.author, tx.changes⟩
        simp [finishPush, hg, hb, commitVersion, hr, ih]
      · simp [finishPush, hg, hb, ih]
  | cancel st txId h ih =>
    rcases hg : getTx st.txs txId with _ | tx
    · simp [cancelPush, hg, ih]
    · simp [cancelPush, hg, ih]
  | inline st bv ch a h ih =>
    by_cases hb : bv = currentVersion st
    · have hr := replay_append st.versions ⟨a, ch⟩
      simp [pushInline, hb, commitVersion, hr, ih]
    · simp [pushInline, hb, ih]

/-- Witness for C2: the state after one committed inline push satisfies the
replay invariant. -/
theorem c2_replay_reconstructs_witness :
    (pushInline initialState 0 sampleChanges "alice").2.files =
      replay (pushInline initialState 0 sampleChanges "alice").2.versions :=
  c2_replay_reconstructs _
    (Reachable.inline initialState 0 sampleChanges "alice" Reachable.init)

/-- Claim C3: every push response is one of exactly two shapes: a committed
ProjectDetail, or an object carrying a transaction identifier. -/
theorem c3_push_response_shapes (r : PushProjectChangesResponse) :
    (∃ d, r = PushProjectChangesResponse.detail d) ∨
    (∃ t, r = PushProjectChangesResponse.transaction t) := by
  cases r with
  | detail d => exact Or.inl ⟨d, rfl⟩
  | transaction t => exact Or.inr ⟨t, rfl⟩

/-- Claim C4: once a chunk upload for (fileKey, chunkIndex) with bytes b has
been acknowledged in an open transaction, re-uploading b is a no-op leaving
the state unchanged, while uploading different bytes for that chunk returns
ChunkMismatch. -/
theorem c4_chunk_upload_idempotent (st : ServerState) (txId : Nat) (tx : Tx)
    (fk : String) (i : Nat) (b : List Nat) (st1 : ServerState)
    (hget : getTx st.txs txId = some tx)
    (hup : uploadChunk st txId fk i b = (Except.ok (), st1)) :
    uploadChunk st1 txId fk i b = (Except.ok (), st1) ∧
    ∀ b', b' ≠ b →
      (uploadChunk st1 txId fk i b').1 =
        Except.error PushError.ChunkMismatch := by
  rcases hc : getChunk tx.chunks (fk, i) with _ | b0
  · -- the chunk was fresh: it is recorded with bytes b
    simp only [uploadChunk, hget, hc] at hup
    have h2 : ({ st with
        txs := setTx st.txs txId
          { tx with chunks := ((fk, i), b) :: tx.chunks } } : ServerState)
        = st1 := by
      simpa using congrArg Prod.snd hup
    subst h2
    have hget1 := getTx_setTx st.txs txId tx
      { tx with chunks := ((fk, i), b) :: tx.chunks } hget
    constructor
    · simp [uploadChunk, hget1, getChunk]
    · intro b' hb'
      have hne : b ≠ b' := fun hbb => hb' hbb.symm
      simp [uploadChunk, hget1, getChunk, hne]
  · -- the chunk was already acknowledged: the acked bytes must equal b
    simp only [uploadChunk, hget, hc] at hup
    by_cases hb : b0 = b
    · subst hb
      simp only [if_pos rfl] at hup
      have h2 : st = st1 := by simpa using congrArg Prod.snd hup
      subst h2
      constructor
      · simp [uploadChunk, hget, hc]
      · intro b' hb'
        have hne : b0 ≠ b' := fun hbb => hb' hbb.symm
        simp [uploadChunk, hget, hc, hne]
    · simp [if_neg hb] at hup

/-- Witness for C4: after uploading chunk bytes into the sample open
transaction, re-uploading the same bytes is a no-op and different bytes are
rejected with ChunkMismatch. -/
theorem c4_chunk_upload_idempotent_witness :
    uploadChunk chunkedTxState 0 "f" 0 [1, 2] =
      (Except.ok (), chunkedTxState) ∧
    (uploadChunk chunkedTxState 0 "f" 0 [9]).1 =
      Except.error PushError.ChunkMismatch :=
  ⟨(c4_chunk_upload_idempotent openTxState 0 ⟨0, sampleChanges, "alice", []⟩
      "f" 0 [1, 2] chunkedTxState (by decide) rfl).1,
   (c4_chunk_upload_idempotent openTxState 0 ⟨0, sampleChanges, "alice", []⟩
      "f" 0 [1, 2] chunkedTxState (by decide) rfl).2 [9] (by decide)⟩

/-- Claim C5 as stated is false at the acceptance endpoint: the permissions
enum of accept_project_access_request is the three-value set owner, write,
read, which is not the four-value role set of update_project_access; in
particular writer and none are absent from it. -/
theorem c5_role_set_counterexample :
    acceptRequestPermissionEnum ≠ updateProjectAccessRoleEnum ∧
    "writer" ∉ acceptRequestPermissionEnum ∧
    "none" ∉ acceptRequestPermissionEnum := by
  decide

/-- Claim C5 amended: the effective role resolves to exactly one of owner,
writer, reader, none following the membership lists and the public flag, and
the four-value role set is the enum of direct access grants
(update_project_access); access-request acceptance however uses the
three-value permissions enum owner, write, read. -/
theorem c5_role_resolution_amended :
    (∀ (a : ProjectAccess) (u : Nat),
      (u ∈ a.owners → resolveRole a u = ProjectRoleName.owner) ∧
      (u ∉ a.owners → u ∈ a.writers →
        resolveRole a u = ProjectRoleName.writer) ∧
      (u ∉ a.owners → u ∉ a.writers → u ∈ a.readers →
        resolveRole a u = ProjectRoleName.reader) ∧
      (u ∉ a.owners → u ∉ a.writers → u ∉ a.readers → a.public = true →
        resolveRole a u = ProjectRoleName.reader) ∧
      (u ∉ a.owners → u ∉ a.writers → u ∉ a.readers → a.public = false →
        resolveRole a u = ProjectRoleName.none)) ∧
    updateProjectAccessRoleEnum = ["owner", "writer", "reader", "none"] ∧
    acceptRequestPermissionEnum = ["owner", "write", "read"] := by
  refine ⟨?_, rfl, rfl⟩
  intro a u
  refine ⟨?_, ?_, ?_, ?_, ?_⟩ <;> intros <;> simp [resolveRole, *]

/-- Witness for the amended C5: on the sample access records, user 1 is
owner, user 2 writer, user 3 reader; user 4 is reader on the public project
and none on the private one. -/
theorem c5_role_resolution_amended_witness :
    resolveRole samplePublicAccess 1 = ProjectRoleName.owner ∧
    resolveRole samplePublicAccess 2 = ProjectRoleName.writer ∧
    resolveRole samplePublicAccess 3 = ProjectRoleName.reader ∧
    resolveRole samplePublicAccess 4 = ProjectRoleName.reader ∧
    resolveRole samplePrivateAccess 4 = ProjectRoleName.none :=
  ⟨(c5_role_resolution_amended.1 samplePublicAccess 1).1 (by decide),
   (c5_role_resolution_amended.1 samplePublicAccess 2).2.1 (by decide)
     (by decide),
   (c5_role_resolution_amended.1 samplePublicAccess 3).2.2.1 (by decide)
     (by decide) (by decide),
   (c5_role_resolution_amended.1 samplePublicAccess 4).2.2.2.1 (by decide)
     (by decide) (by decide) rfl,
   (c5_role_resolution_amended.1 samplePrivateAccess 4).2.2.2.2 (by decide)
     (by decide) (by decide) rfl⟩

/-- Claim C6 as stated is false: the changesets union has no explicit
discriminant, and inspecting the shape does not determine the variant: the
object carrying only a size fits both the ChangesetSuccess shape and the
ChangesetError shape. -/
theorem c6_changeset_counterexample :
    ¬ (∀ c : ChangesetJson, fitsChangesetUnion c = true →
        (fitsChangesetSuccess c = true ↔ fitsChangesetError c = false)) := by
  intro h
  have h5 := h ⟨some 5, none, none⟩ (by decide)
  simp [fitsChangesetSuccess, fitsChangesetError] at h5

/-- Claim C6 amended: the changeset attached to a version is the untagged
structural union ChangesetSuccess | ChangesetError: the only property the two
interfaces share is size, neither declares a discriminant tag, and the shapes
overlap, so a value carrying only a size fits both. -/
theorem c6_changeset_amended :
    changesetSuccessFields.inter changesetErrorFields = ["size"] ∧
    changesetSuccessFields = ["size", "summary"] ∧
    changesetErrorFields = ["size", "error"] ∧
    ∃ c : ChangesetJson, fitsChangesetUnion c = true ∧
      fitsChangesetSuccess c = true ∧ fitsChangesetError c = true := by
  refine ⟨by decide, rfl, rfl, ⟨⟨some 5, none, none⟩, by decide, by decide,
    by decide⟩⟩

/-- Claim C7 as stated is false: in a committed ProjectVersion the updated
change list has the same element record as the added list (FileInfo), not the
FileDiff record, and FileDiff itself carries a single checksum property, not
an old and a new one. -/
theorem c7_updated_entries_counterexample :
    projectVersionUpdatedEntryFields = projectVersionAddedEntryFields ∧
    projectVersionUpdatedEntryFields ≠ fileDiffFields ∧
    fileDiffFields.count "checksum" = 1 ∧
    updateFileInfoFields.count "checksum" = 1 := by
  decide

/-- Claim C7 amended: in a committed ProjectVersion the added, removed and
updated change lists all contain plain FileInfo records with a single
checksum; only the push-request parameters type updated entries as
UpdateFileInfo, and every one of these records carries exactly one checksum
property. -/
theorem c7_updated_entries_amended :
    projectVersionAddedEntryFields = fileInfoFields ∧
    projectVersionRemovedEntryFields = fileInfoFields ∧
    projectVersionUpdatedEntryFields = fileInfoFields ∧
    pushParamsUpdatedEntryFields = updateFileInfoFields ∧
    fileInfoFields.count "checksum" = 1 ∧
    updateFileInfoFields.count "checksum" = 1 ∧
    fileDiffFields.count "checksum" = 1 := by
  decide

/-- Claim C8: creating an access request fails with Conflict when a pending
request already exists for that user and project, fails with Forbidden when
the project does not allow requests, otherwise records a pending request; and
the at-most-one-pending-per-user-and-project invariant is preserved. -/
theorem c8_access_request (pending : List (String × Nat)) (allowed : Bool)
    (proj : String) (user : Nat) :
    ((proj, user) ∈ pending →
      createAccessRequest pending allowed proj user =
        (Except.error PushError.Conflict, pending)) ∧
    ((proj, user) ∉ pending → allowed = false →
      createAccessRequest pending allowed proj user =
        (Except.error PushError.Forbidden, pending)) ∧
    ((proj, user) ∉ pending → allowed = true →
      createAccessRequest pending allowed proj user =
        (Except.ok (), (proj, user) :: pending)) ∧
    (pending.Nodup → (createAccessRequest pending allowed proj user).2.Nodup) := by
  refine ⟨?_, ?_, ?_, ?_⟩
  · intro h
    simp [createAccessRequest, h]
  · intro h ha
    simp [createAccessRequest, h, ha]
  · intro h ha
    simp [createAccessRequest, h, ha]
  · intro h
    by_cases hm : (proj, user) ∈ pending
    · simp [createAccessRequest, hm, h]
    · by_cases ha : allowed
      · simp [createAccessRequest, hm, ha, h]
      · simp [createAccessRequest, hm, ha, h]

/-- Witness for C8: a duplicate pending request conflicts, a project that
does not allow requests forbids, and an allowed fresh request is recorded. -/
theorem c8_access_request_witness :
    createAccessRequest [("ws/survey", 7)] true "ws/survey" 7 =
      (Except.error PushError.Conflict, [("ws/survey", 7)]) ∧
    createAccessRequest [] false "ws/survey" 7 =
      (Except.error PushError.Forbidden, []) ∧
    createAccessRequest [] true "ws/survey" 7 =
      (Except.ok (), [("ws/survey", 7)]) :=
  ⟨(c8_access_request [("ws/survey", 7)] true "ws/survey" 7).1 (by decide),
   (c8_access_request [] false "ws/survey" 7).2.1 (by decide) rfl,
   (c8_access_request [] true "ws/survey" 7).2.2.1 (by decide) rfl⟩

/-- Claim C9: restoring a soft-deleted project clears the soft-delete
markers and clears every previously granted access permission other than the
creator grant: the creator resolves to owner and every other user resolves to
none on the restored project. -/
theorem c9_restore_clears_access (p : AdminProjectRec) :
    (restore_project p).removed_at = none ∧
    (restore_project p).removed_by = none ∧
    resolveRole (restore_project p).access p.creator = ProjectRoleName.owner ∧
    ∀ u : Nat, u ≠ p.creator →
      u ∉ (restore_project p).access.owners ∧
      u ∉ (restore_project p).access.writers ∧
      u ∉ (restore_project p).access.readers ∧
      resolveRole (restore_project p).access u = ProjectRoleName.none := by
  refine ⟨rfl, rfl, ?_, ?_⟩
  · simp [restore_project, resolveRole]
  · intro u hu
    simp [restore_project, resolveRole, hu]

/-- Witness for C9: on the sample soft-deleted project with shared access,
user 2 (previously owner and writer) has every grant cleared after restore
and resolves to none, while creator 1 resolves to owner. -/
theorem c9_restore_clears_access_witness :
    (2 ∉ (restore_project sampleRemovedProject).access.owners ∧
      2 ∉ (restore_project sampleRemovedProject).access.writers ∧
      2 ∉ (restore_project sampleRemovedProject).access.readers ∧
      resolveRole (restore_project sampleRemovedProject).access 2 =
        ProjectRoleName.none) :=
  (c9_restore_clears_access sampleRemovedProject).2.2.2 2 (by decide)

/-- Claim C10: the displayUpdateAvailable getter returns true exactly when
update checking is enabled, the latest server version and the instance config
are present with major and minor defined, and the latest (major, minor, fix)
is strictly lexicographically greater than the configured version; in
particular on equal versions it returns false. -/
theorem c10_display_update_available :
    (∀ cfu lsv cfg,
      displayUpdateAvailable cfu lsv cfg = specUpdateAvailable cfu lsv cfg) ∧
    (∀ l : LatestServerVersion,
      displayUpdateAvailable (some true) (some l)
        (some ⟨some l.major, some l.minor, some l.fix⟩) = false) := by
  constructor
  · intro cfu lsv cfg
    rcases cfu with _ | b
    · simp [displayUpdateAvailable, specUpdateAvailable]
    · cases b
      · simp [displayUpdateAvailable, specUpdateAvailable]
      · rcases lsv with _ | l
        · simp [displayUpdateAvailable, specUpdateAvailable]
        · rcases cfg with _ | c
          · simp [displayUpdateAvailable, specUpdateAvailable]
          · obtain ⟨cma, cmi, cfx⟩ := c
            rcases cma with _ | cma
            · simp [displayUpdateAvailable, specUpdateAvailable]
            · rcases cmi with _ | cmi
              · simp [displayUpdateAvailable, specUpdateAvailable]
              · simp only [displayUpdateAvailable, specUpdateAvailable]
                split_ifs with h1 h2 h3 h4 <;> simp_all
  · intro l
    simp [displayUpdateAvailable, jsGtOpt]

end Mergin
